import Mathlib

/-!
Shallow embedding of src/redis_based_rate_limiter.py.

The repository provides two decorators:

* `rate_limiter(thread_name, calls, period, host, port, db, decode_responses)`
  (lines 6-49): its `wrapper` increments a Redis counter, on count 1 validates
  the period bound and arms a key expiry, then returns `None` when the count
  exceeds `calls` and otherwise the wrapped function result.
* `ensure_delay(seconds)` (lines 51-64): runs the wrapped function, sleeps,
  and returns the result.

The Redis store is modelled as a partial map from keys to counter entries
carrying an optional absolute expiry deadline (milliseconds). `INCR` and
`PEXPIRE` follow the Redis semantics the code relies on: an expired key is
treated as absent, `INCR` creates an absent key at 1 with no TTL and
preserves an existing TTL, `PEXPIRE` sets the deadline of a live key.
Store interactions of a call are recorded in a trace of `StoreOp` values.
-/

/-- One Redis key: the current counter value and, when a TTL has been armed,
the absolute time (in milliseconds) at which the key expires. -/
structure Entry where
  count : Nat
  deadline : Option Nat
deriving DecidableEq, Repr

/-- The Redis database restricted to the string-counter keys the code uses. -/
def Store : Type := String → Option Entry

/-- Point update of the store. -/
def Store.update (s : Store) (k : String) (e : Entry) : Store :=
  fun k2 => if k2 = k then some e else s k2

/-- The store with no keys. -/
def Store.empty : Store := fun _ => none

/-- Redis lazily deletes expired keys: a key whose deadline has passed is
observed as absent.  `now` is the current time in milliseconds. -/
def Store.lookup (s : Store) (now : Nat) (k : String) : Option Entry :=
  match s k with
  | none => none
  | some e =>
    match e.deadline with
    | none => some e
    | some d => if now < d then some e else none

/-- Redis `INCR key`: atomically increments and returns the new value,
creating the key at 1 (with no TTL) if absent; an existing TTL is kept. -/
def Store.incr (s : Store) (now : Nat) (k : String) : Nat × Store :=
  match Store.lookup s now k with
  | none => (1, Store.update s k ⟨1, none⟩)
  | some e => (e.count + 1, Store.update s k ⟨e.count + 1, e.deadline⟩)

/-- Redis `PEXPIRE key ms`: sets a time-to-live in milliseconds on a live
key, returning whether the key existed. -/
def Store.pexpire (s : Store) (now : Nat) (k : String) (ms : Int) :
    Bool × Store :=
  match Store.lookup s now k with
  | none => (false, s)
  | some e => (true, Store.update s k ⟨e.count, some (now + ms.toNat)⟩)

/-- Errors the `wrapper` can raise: the period-bound `Exception` of line 41,
or a redis client error propagating out of the store calls. -/
inductive RLError where
  | validation (ms : Int)
  | storeUnavailable
deriving DecidableEq, Repr

/-- Store operations performed by one call, in order. -/
inductive StoreOp where
  | incrOp (key : String) (result : Nat)
  | pexpireOp (key : String) (ms : Int)
deriving DecidableEq, Repr

def StoreOp.isIncr : StoreOp → Bool
  | .incrOp _ _ => true
  | .pexpireOp _ _ => false

def StoreOp.isPexpire : StoreOp → Bool
  | .incrOp _ _ => false
  | .pexpireOp _ _ => true

/-- Result of one `wrapper` call: the Python return value (or raised error),
the store afterwards, and the store operations performed.  A Python return
value is `Option α`: `none` is the `None` returned on line 45, `some v` a
value of the wrapped function. -/
structure RunResult (α : Type) where
  outcome : Except RLError (Option α)
  store : Store
  trace : List StoreOp

/-- Line 39: `milliseconds_period = round(period*1000)`. -/
def milliseconds_period (period : ℚ) : Int := round (period * 1000)

/-- Lines 44-46: `None` when the post-increment count exceeds `calls`, else
the wrapped function result. -/
def decision {α : Type} (current_count : Nat) (calls : Int)
    (func : Option α) : Option α :=
  if (current_count : Int) > calls then none else func

/-- The body of `wrapper` (lines 35-46), one call.  `storeUp` injects the
environment: when false the `redis_client.incr` call raises and, having no
handler, the error propagates.  `func` is the value the wrapped function
would return. -/
def tryAcquire {α : Type} (storeUp : Bool) (s : Store) (now : Nat)
    (thread_name : String) (calls : Int) (period : ℚ) (func : Option α) :
    RunResult α :=
  if storeUp then
    let call_cnt_name := thread_name
    let r1 := Store.incr s now call_cnt_name
    let current_count := r1.1
    let s1 := r1.2
    if current_count = 1 then
      let ms := milliseconds_period period
      if ms ≤ 0 ∨ 1000 * 60 * 5 < ms then
        ⟨Except.error (RLError.validation ms), s1,
          [StoreOp.incrOp call_cnt_name current_count]⟩
      else
        let s2 := (Store.pexpire s1 now call_cnt_name ms).2
        ⟨Except.ok (decision current_count calls func), s2,
          [StoreOp.incrOp call_cnt_name current_count,
           StoreOp.pexpireOp call_cnt_name ms]⟩
    else
      ⟨Except.ok (decision current_count calls func), s1,
        [StoreOp.incrOp call_cnt_name current_count]⟩
  else
    ⟨Except.error RLError.storeUnavailable, s, []⟩

/-- Repeated calls of the same decorated function, one per entry of `times`
(the call instants, in milliseconds), threading the store. -/
def iterCalls {α : Type} (storeUp : Bool) (thread_name : String)
    (calls : Int) (period : ℚ) (func : Option α) :
    List Nat → Store → List (Except RLError (Option α)) × Store × List StoreOp
  | [], s => ([], s, [])
  | t :: ts, s =>
    let r := tryAcquire storeUp s t thread_name calls period func
    let rest := iterCalls storeUp thread_name calls period func ts r.store
    (r.outcome :: rest.1, rest.2.1, r.trace ++ rest.2.2)

/-- Line 30: the redis client is constructed with literal arguments; the
`host`, `port`, `db` and `decode_responses` parameters of `rate_limiter`
are not used. -/
structure RedisConfig where
  host : String
  port : Int
  db : Int
  decode_responses : Bool
deriving DecidableEq, Repr

def rate_limiter_redis_client (host : String) (port : Int) (db : Int)
    (decode_responses : Bool) : RedisConfig :=
  { host := "localhost", port := 6379, db := 0, decode_responses := true }

/-- Events observable from `ensure_delay.wrapper`: running the wrapped
function, and the `time.sleep` call. -/
inductive DelayOp (E A : Type) where
  | action (r : Except E A)
  | sleepFor (seconds : ℚ)

/-- Lines 58-61: `result = func(...)`, `time.sleep(seconds)`,
`return result`.  When `func` raises, Python propagates the error at the
first line, so `time.sleep` is never reached. -/
def ensure_delay {E A : Type} (seconds : ℚ) (func : Except E A) :
    Except E A × List (DelayOp E A) :=
  match func with
  | Except.ok result =>
    (Except.ok result, [DelayOp.action func, DelayOp.sleepFor seconds])
  | Except.error e => (Except.error e, [DelayOp.action func])

/-! ### Basic store lemmas -/

theorem Store.update_self (s : Store) (k : String) (e : Entry) :
    Store.update s k e k = some e := by
  simp [Store.update]

theorem Store.lookup_update_self_none (s : Store) (now : Nat) (k : String)
    (c : Nat) : Store.lookup (Store.update s k ⟨c, none⟩) now k = some ⟨c, none⟩ := by
  simp [Store.lookup, Store.update]

/-! ### Shapes of one `wrapper` call -/

/-- A call on a fresh (absent or expired) key with the period bound
satisfied: increment to 1, arm the expiry, decide. -/
theorem tryAcquire_fresh_valid {α : Type} (s : Store) (now : Nat)
    (name : String) (calls : Int) (period : ℚ) (func : Option α)
    (hl : Store.lookup s now name = none)
    (h1 : 0 < milliseconds_period period)
    (h2 : milliseconds_period period ≤ 1000 * 60 * 5) :
    tryAcquire true s now name calls period func =
      ⟨Except.ok (decision 1 calls func),
       Store.update (Store.update s name ⟨1, none⟩) name
         ⟨1, some (now + (milliseconds_period period).toNat)⟩,
       [StoreOp.incrOp name 1,
        StoreOp.pexpireOp name (milliseconds_period period)]⟩ := by
  have hcond : ¬ (milliseconds_period period ≤ 0 ∨
      1000 * 60 * 5 < milliseconds_period period) := by omega
  simp only [tryAcquire, Store.incr, hl, if_true]
  simp only [if_neg hcond, Store.pexpire, Store.lookup_update_self_none]

/-- A call on a fresh key with the period bound violated: increment to 1,
then the exception of line 41; the expiry is never armed. -/
theorem tryAcquire_fresh_invalid {α : Type} (s : Store) (now : Nat)
    (name : String) (calls : Int) (period : ℚ) (func : Option α)
    (hl : Store.lookup s now name = none)
    (hbad : milliseconds_period period ≤ 0 ∨
      1000 * 60 * 5 < milliseconds_period period) :
    tryAcquire true s now name calls period func =
      ⟨Except.error (RLError.validation (milliseconds_period period)),
       Store.update s name ⟨1, none⟩,
       [StoreOp.incrOp name 1]⟩ := by
  simp [tryAcquire, Store.incr, hl]
  omega

/-- A call on a live key whose count is at least 1: increment only, no
period check, no expiry arming, decide on the new count. -/
theorem tryAcquire_live {α : Type} (s : Store) (now : Nat) (name : String)
    (calls : Int) (period : ℚ) (func : Option α) (e : Entry)
    (hl : Store.lookup s now name = some e) (hc : 1 ≤ e.count) :
    tryAcquire true s now name calls period func =
      ⟨Except.ok (decision (e.count + 1) calls func),
       Store.update s name ⟨e.count + 1, e.deadline⟩,
       [StoreOp.incrOp name (e.count + 1)]⟩ := by
  have hne : ¬ (e.count + 1 = 1) := by omega
  simp [tryAcquire, Store.incr, hl, hne]

/-! ### Iterated calls -/

/-- Repeated calls inside one armed window: each call increments the live
counter and decides on the new count; the deadline is untouched. -/
theorem iterCalls_live_window {α : Type} (name : String) (n : Int)
    (period : ℚ) (func : Option α) (now d : Nat) (hnd : now < d) :
    ∀ (k : Nat) (s : Store) (c : Nat), s name = some ⟨c, some d⟩ → 1 ≤ c →
    (iterCalls true name n period func (List.replicate k now) s).1
      = (List.range k).map (fun i => Except.ok (decision (c + 1 + i) n func))
    ∧ (iterCalls true name n period func (List.replicate k now) s).2.1 name
      = some ⟨c + k, some d⟩ := by
  intro k
  induction k with
  | zero =>
    intro s c hs hc
    simp [iterCalls, hs]
  | succ k ih =>
    intro s c hs hc
    have hl : Store.lookup s now name = some ⟨c, some d⟩ := by
      simp [Store.lookup, hs, hnd]
    have hstep := tryAcquire_live s now name n period func ⟨c, some d⟩ hl hc
    have hrec := ih (Store.update s name ⟨c + 1, some d⟩) (c + 1)
      (Store.update_self s name ⟨c + 1, some d⟩) (by omega)
    constructor
    · simp only [List.replicate_succ, iterCalls, hstep]
      rw [hrec.1, List.range_succ_eq_map]
      simp only [List.map_cons, List.map_map, Function.comp, Nat.add_zero]
      congr 1
      refine List.map_congr_left fun i _ => ?_
      have harg : c + 1 + 1 + i = c + 1 + Nat.succ i := by omega
      simp [Function.comp, harg]
    · simp only [List.replicate_succ, iterCalls, hstep]
      rw [show c + (k + 1) = c + 1 + k from by omega]
      exact hrec.2

/-- Repeated calls on a key that exists with no TTL (the state left behind
by a failed period validation): every call is a plain increment — the
count only grows, no call sees count 1, the period is never re-checked and
no expiry is ever armed. -/
theorem iterCalls_no_ttl {α : Type} (name : String) (n : Int)
    (period : ℚ) (func : Option α) :
    ∀ (ts : List Nat) (s : Store) (m : Nat), s name = some ⟨m, none⟩ → 1 ≤ m →
    (iterCalls true name n period func ts s).1
      = (List.range ts.length).map
          (fun i => Except.ok (decision (m + 1 + i) n func))
    ∧ (iterCalls true name n period func ts s).2.1 name
      = some ⟨m + ts.length, none⟩
    ∧ (iterCalls true name n period func ts s).2.2
      = (List.range ts.length).map
          (fun i => StoreOp.incrOp name (m + 1 + i)) := by
  intro ts
  induction ts with
  | nil =>
    intro s m hs hm
    simp [iterCalls, hs]
  | cons t ts ih =>
    intro s m hs hm
    have hl : Store.lookup s t name = some ⟨m, none⟩ := by
      simp [Store.lookup, hs]
    have hstep := tryAcquire_live s t name n period func ⟨m, none⟩ hl hm
    have hrec := ih (Store.update s name ⟨m + 1, none⟩) (m + 1)
      (Store.update_self s name ⟨m + 1, none⟩) (by omega)
    refine ⟨?_, ?_, ?_⟩
    · simp only [iterCalls, hstep, List.length_cons]
      rw [hrec.1, List.range_succ_eq_map]
      simp only [List.map_cons, List.map_map, Nat.add_zero]
      congr 1
      refine List.map_congr_left fun i _ => ?_
      have harg : m + 1 + 1 + i = m + 1 + Nat.succ i := by omega
      simp [Function.comp, harg]
    · simp only [iterCalls, hstep, List.length_cons]
      rw [show m + (ts.length + 1) = m + 1 + ts.length from by omega]
      exact hrec.2.1
    · simp only [iterCalls, hstep, List.length_cons]
      rw [hrec.2.2, List.range_succ_eq_map]
      simp only [List.map_cons, List.map_map, Nat.add_zero, List.cons_append,
        List.nil_append]
      congr 1
      refine List.map_congr_left fun i _ => ?_
      have harg : m + 1 + 1 + i = m + 1 + Nat.succ i := by omega
      simp [Function.comp, harg]

/-- Inversion of a successful lookup: the key is stored and any deadline
lies in the future. -/
theorem Store.lookup_eq_some (s : Store) (now : Nat) (k : String) (e : Entry)
    (hl : Store.lookup s now k = some e) :
    s k = some e ∧ ∀ d, e.deadline = some d → now < d := by
  unfold Store.lookup at hl
  split at hl
  · exact absurd hl (by simp)
  · rename_i e2 hs
    split at hl
    · rename_i hd
      obtain rfl : e2 = e := by simpa using hl
      exact ⟨hs, by simp [hd]⟩
    · rename_i d hd
      by_cases hnd : now < d
      · rw [if_pos hnd] at hl
        obtain rfl : e2 = e := by simpa using hl
        refine ⟨hs, ?_⟩
        intro d2 hd2
        rw [hd] at hd2
        obtain rfl : d = d2 := by simpa using hd2
        exact hnd
      · rw [if_neg hnd] at hl
        exact absurd hl (by simp)

/-- Updating the count of a key that was live keeps it live. -/
theorem Store.lookup_update_live (s : Store) (now : Nat) (k : String)
    (e : Entry) (hl : Store.lookup s now k = some e) (c : Nat) :
    Store.lookup (Store.update s k ⟨c, e.deadline⟩) now k
      = some ⟨c, e.deadline⟩ := by
  have h := Store.lookup_eq_some s now k e hl
  unfold Store.lookup
  rw [Store.update_self]
  cases hd : e.deadline with
  | none => rfl
  | some d => simp [h.2 d hd]

/-- A call that finds a live key at count 0 behaves like a first call: the
increment returns 1, so the period check runs and the expiry is armed. -/
theorem tryAcquire_live_zero {α : Type} (s : Store) (now : Nat)
    (name : String) (calls : Int) (period : ℚ) (func : Option α) (e : Entry)
    (hl : Store.lookup s now name = some e) (hc : e.count = 0)
    (h1 : 0 < milliseconds_period period)
    (h2 : milliseconds_period period ≤ 1000 * 60 * 5) :
    tryAcquire true s now name calls period func =
      ⟨Except.ok (decision 1 calls func),
       Store.update (Store.update s name ⟨1, e.deadline⟩) name
         ⟨1, some (now + (milliseconds_period period).toNat)⟩,
       [StoreOp.incrOp name 1,
        StoreOp.pexpireOp name (milliseconds_period period)]⟩ := by
  have hcond : ¬ (milliseconds_period period ≤ 0 ∨
      1000 * 60 * 5 < milliseconds_period period) := by omega
  have hup := Store.lookup_update_live s now name e hl 1
  simp only [tryAcquire, Store.incr, hl, hc, Nat.zero_add, if_true,
    if_neg hcond, Store.pexpire, hup]

/-- With the period bound satisfied a call never raises: it returns the
decision on the post-increment count. -/
theorem tryAcquire_ok {α : Type} (s : Store) (now : Nat) (name : String)
    (calls : Int) (period : ℚ) (func : Option α)
    (h1 : 0 < milliseconds_period period)
    (h2 : milliseconds_period period ≤ 1000 * 60 * 5) :
    (tryAcquire true s now name calls period func).outcome
      = Except.ok (decision (Store.incr s now name).1 calls func) := by
  cases hl : Store.lookup s now name with
  | none =>
    rw [tryAcquire_fresh_valid s now name calls period func hl h1 h2]
    simp [Store.incr, hl]
  | some e =>
    by_cases hc : e.count = 0
    · rw [tryAcquire_live_zero s now name calls period func e hl hc h1 h2]
      simp [Store.incr, hl, hc]
    · rw [tryAcquire_live s now name calls period func e hl (by omega)]
      simp [Store.incr, hl]

/-! ### Concrete names used in closed instantiations -/

def keyK : String := "k"

def hostA : String := "10.0.0.5"

def boomMsg : String := "boom"

/-! ### Claims -/

/-- Claim C4: the configuration surface is not passed through.  Line 30
builds the redis client from literals, so the client of a gate constructed
for host 10.0.0.5, port 1234, db 2, raw responses is still the
localhost:6379 db 0 decoded-text client — contradicting the documented
parameters of `rate_limiter`. -/
theorem C4_config_not_passed_through :
    rate_limiter_redis_client hostA 1234 2 false
      = { host := "localhost", port := 6379, db := 0,
          decode_responses := true }
    ∧ rate_limiter_redis_client hostA 1234 2 false
      ≠ { host := hostA, port := 1234, db := 2,
          decode_responses := false } := by
  refine ⟨rfl, ?_⟩
  decide

/-- Claim C7: when the redis increment raises, the call propagates the
store error: the store is untouched, no further operation (and no retry)
happens, and no Allowed or Denied value is returned. -/
theorem C7_store_error_propagates {α : Type} (s : Store) (now : Nat)
    (name : String) (calls : Int) (period : ℚ) (func : Option α) :
    tryAcquire false s now name calls period func
      = ⟨Except.error RLError.storeUnavailable, s, []⟩
    ∧ ∀ v : Option α,
        (tryAcquire false s now name calls period func).outcome
          ≠ Except.ok v := by
  refine ⟨rfl, ?_⟩
  intro v h
  simp [tryAcquire] at h

/-- Claim C8: with the period bound satisfied, a call whose post-increment
count exceeds `calls` returns None as an ordinary value; nothing is
raised. -/
theorem C8_denied_is_a_value {α : Type} (s : Store) (now : Nat)
    (name : String) (calls : Int) (period : ℚ) (func : Option α)
    (h1 : 0 < milliseconds_period period)
    (h2 : milliseconds_period period ≤ 1000 * 60 * 5)
    (hover : ((Store.incr s now name).1 : Int) > calls) :
    (tryAcquire true s now name calls period func).outcome
      = Except.ok none := by
  rw [tryAcquire_ok s now name calls period func h1 h2]
  simp [decision, hover]

/-- Concrete check of C8: a second call with max_calls = 1 is denied by
value. -/
theorem C8_witness :
    0 < milliseconds_period 1 ∧ milliseconds_period 1 ≤ 1000 * 60 * 5
    ∧ ((Store.incr (Store.update Store.empty keyK ⟨1, none⟩) 0 keyK).1 : Int)
        > 1
    ∧ (tryAcquire true (Store.update Store.empty keyK ⟨1, none⟩) 0 keyK 1 1
        (some 4)).outcome = Except.ok none := by
  have h1 : 0 < milliseconds_period 1 := by norm_num [milliseconds_period]
  have h2 : milliseconds_period 1 ≤ 1000 * 60 * 5 := by
    norm_num [milliseconds_period]
  have hover : ((Store.incr (Store.update Store.empty keyK ⟨1, none⟩)
      0 keyK).1 : Int) > 1 := by
    simp [Store.incr, Store.lookup, Store.update]
  exact ⟨h1, h2, hover,
    C8_denied_is_a_value (Store.update Store.empty keyK ⟨1, none⟩) 0 keyK 1 1
      (some 4) h1 h2 hover⟩

/-- Claim C3 counterexample: with delay 5 around an action that raises, the
error propagates at once — the trace shows no sleep, so the return does not
wait for the delay. -/
theorem C3_counterexample :
    (ensure_delay 5 (Except.error boomMsg : Except String Nat)).1
      = Except.error boomMsg
    ∧ (ensure_delay 5 (Except.error boomMsg : Except String Nat)).2
      = [DelayOp.action (Except.error boomMsg)]
    ∧ (DelayOp.sleepFor 5 : DelayOp String Nat) ∉
        (ensure_delay 5 (Except.error boomMsg : Except String Nat)).2 := by
  refine ⟨rfl, rfl, ?_⟩
  simp [ensure_delay]

/-- Claim C3 amended: the fixed wait separates the completed action from
the return of its result, but only on the success path; an action that
raises propagates its error immediately, with no wait. -/
theorem C3_amended_delay_only_on_success {E A : Type} (seconds : ℚ)
    (func : Except E A) :
    (∀ r, func = Except.ok r →
      ensure_delay seconds func
        = (Except.ok r, [DelayOp.action func, DelayOp.sleepFor seconds]))
    ∧ ∀ e, func = Except.error e →
      ensure_delay seconds func
        = (Except.error e, [DelayOp.action func]) := by
  constructor
  · intro r h
    subst h
    rfl
  · intro e h
    subst h
    rfl

/-- Concrete check of the amended C3 on a succeeding action. -/
theorem C3_amended_witness :
    ensure_delay 5 (Except.ok 3 : Except String Nat)
      = (Except.ok 3,
         [DelayOp.action (Except.ok 3), DelayOp.sleepFor 5]) :=
  (C3_amended_delay_only_on_success 5 (Except.ok 3)).1 3 rfl

/-- Claim C2 counterexample: a call with the invalid period 0 on a fresh
key does raise, but only after incrementing — the trace is nonempty and
the key is left at count 1; and a call with the invalid max_calls 0 raises
nothing at all. -/
theorem C2_counterexample :
    (tryAcquire true Store.empty 0 keyK 5 0 (some 1)).outcome
      = Except.error (RLError.validation (milliseconds_period 0))
    ∧ (tryAcquire true Store.empty 0 keyK 5 0 (some 1)).trace
      = [StoreOp.incrOp keyK 1]
    ∧ (tryAcquire true Store.empty 0 keyK 5 0 (some 1)).trace ≠ []
    ∧ (tryAcquire true Store.empty 0 keyK 5 0 (some 1)).store keyK
      = some ⟨1, none⟩
    ∧ (tryAcquire true Store.empty 0 keyK 0 1 (some 1)).outcome
      = Except.ok none := by
  have hbad : milliseconds_period 0 ≤ 0 ∨
      1000 * 60 * 5 < milliseconds_period 0 :=
    Or.inl (by norm_num [milliseconds_period])
  have h := tryAcquire_fresh_invalid Store.empty 0 keyK 5 0 (some 1) rfl hbad
  have h1 : (0 : Int) < milliseconds_period 1 := by
    norm_num [milliseconds_period]
  have h2 : milliseconds_period 1 ≤ 1000 * 60 * 5 := by
    norm_num [milliseconds_period]
  have hv := tryAcquire_ok Store.empty 0 keyK 0 1 (some 1) h1 h2
  rw [h]
  refine ⟨rfl, rfl, by simp, Store.update_self Store.empty keyK ⟨1, none⟩, ?_⟩
  rw [hv]
  simp [Store.incr, Store.lookup, Store.empty, decision]

/-- Claim C2 amended: the code validates only the period bound, only on the
call whose increment returned 1, and after that increment: the rejected
caller is billed one increment, the key is left at count 1 with no expiry
armed; max_calls (and the name) are never validated — with any max_calls,
even non-positive, a call under a valid period returns a value. -/
theorem C2_amended_validation_after_increment {α : Type} (s : Store)
    (now : Nat) (name : String) (calls : Int) (period : ℚ) (func : Option α)
    (hl : Store.lookup s now name = none)
    (hbad : milliseconds_period period ≤ 0 ∨
      1000 * 60 * 5 < milliseconds_period period) :
    ((tryAcquire true s now name calls period func).outcome
      = Except.error (RLError.validation (milliseconds_period period))
    ∧ (tryAcquire true s now name calls period func).trace
      = [StoreOp.incrOp name 1]
    ∧ (tryAcquire true s now name calls period func).store name
      = some ⟨1, none⟩)
    ∧ ∀ (calls2 : Int) (period2 : ℚ),
        0 < milliseconds_period period2 →
        milliseconds_period period2 ≤ 1000 * 60 * 5 →
        (tryAcquire true s now name calls2 period2 func).outcome
          = Except.ok (decision (Store.incr s now name).1 calls2 func) := by
  constructor
  · have h := tryAcquire_fresh_invalid s now name calls period func hl hbad
    rw [h]
    exact ⟨rfl, rfl, Store.update_self s name ⟨1, none⟩⟩
  · intro calls2 period2 h1 h2
    exact tryAcquire_ok s now name calls2 period2 func h1 h2

/-- Concrete check of the amended C2: period 0, fresh key. -/
theorem C2_amended_witness :
    Store.lookup Store.empty 0 keyK = none
    ∧ milliseconds_period 0 ≤ 0
    ∧ (tryAcquire true Store.empty 0 keyK 5 0 (some 1)).outcome
        = Except.error (RLError.validation (milliseconds_period 0))
    ∧ (tryAcquire true Store.empty 0 keyK 5 0 (some 1)).trace
        = [StoreOp.incrOp keyK 1]
    ∧ (tryAcquire true Store.empty 0 keyK 5 0 (some 1)).store keyK
        = some ⟨1, none⟩ := by
  have hz : milliseconds_period 0 ≤ 0 := by norm_num [milliseconds_period]
  have h := C2_amended_validation_after_increment Store.empty 0 keyK 5 0
    (some 1) rfl (Or.inl hz)
  exact ⟨rfl, hz, h.1.1, h.1.2.1, h.1.2.2⟩

/-- Claim C5: with the period bound satisfied, every call performs exactly
one increment (also a call that ends Denied), and the expiry arming is
issued exactly when that increment returned 1 — as a second, separate
store operation placed after the increment in the trace. -/
theorem C5_one_increment_arm_iff_first {α : Type} (s : Store) (now : Nat)
    (name : String) (calls : Int) (period : ℚ) (func : Option α)
    (h1 : 0 < milliseconds_period period)
    (h2 : milliseconds_period period ≤ 1000 * 60 * 5) :
    ((tryAcquire true s now name calls period func).trace.filter
        StoreOp.isIncr).length = 1
    ∧ ((tryAcquire true s now name calls period func).trace.filter
        StoreOp.isPexpire).length
      = (if (Store.incr s now name).1 = 1 then 1 else 0)
    ∧ (tryAcquire true s now name calls period func).trace
      = (if (Store.incr s now name).1 = 1 then
          [StoreOp.incrOp name 1,
           StoreOp.pexpireOp name (milliseconds_period period)]
         else [StoreOp.incrOp name (Store.incr s now name).1]) := by
  cases hl : Store.lookup s now name with
  | none =>
    have hc : (Store.incr s now name).1 = 1 := by simp [Store.incr, hl]
    rw [tryAcquire_fresh_valid s now name calls period func hl h1 h2]
    simp [hc, StoreOp.isIncr, StoreOp.isPexpire]
  | some e =>
    by_cases hc0 : e.count = 0
    · have hc : (Store.incr s now name).1 = 1 := by
        simp [Store.incr, hl, hc0]
      rw [tryAcquire_live_zero s now name calls period func e hl hc0 h1 h2]
      simp [hc, StoreOp.isIncr, StoreOp.isPexpire]
    · have hc : (Store.incr s now name).1 = e.count + 1 := by
        simp [Store.incr, hl]
      have hne : ¬ (Store.incr s now name).1 = 1 := by omega
      rw [tryAcquire_live s now name calls period func e hl (by omega)]
      simp [hc, hne, hc0, StoreOp.isIncr, StoreOp.isPexpire]

/-- Concrete check of C5: first call on a fresh key increments once and
then arms the expiry as a separate second operation. -/
theorem C5_witness :
    0 < milliseconds_period 1 ∧ milliseconds_period 1 ≤ 1000 * 60 * 5
    ∧ (tryAcquire true Store.empty 0 keyK 2 1 (some 5)).trace
      = [StoreOp.incrOp keyK 1,
         StoreOp.pexpireOp keyK (milliseconds_period 1)] := by
  have h1 : (0 : Int) < milliseconds_period 1 := by
    norm_num [milliseconds_period]
  have h2 : milliseconds_period 1 ≤ 1000 * 60 * 5 := by
    norm_num [milliseconds_period]
  have h := (C5_one_increment_arm_iff_first Store.empty 0 keyK 2 1 (some 5)
    h1 h2).2.2
  refine ⟨h1, h2, ?_⟩
  rw [h]
  simp [Store.incr, Store.lookup, Store.empty]

/-- Claim C6: once the TTL of the counter has elapsed, the next call on the
name starts a new window: the increment returns 1, the expiry is re-armed
for a full period, and the call is Allowed. -/
theorem C6_window_rollover {α : Type} (s : Store) (now : Nat)
    (name : String) (calls : Int) (period : ℚ) (func : Option α) (c d : Nat)
    (hs : s name = some ⟨c, some d⟩) (hexp : d ≤ now)
    (h1 : 0 < milliseconds_period period)
    (h2 : milliseconds_period period ≤ 1000 * 60 * 5)
    (hcalls : 1 ≤ calls) :
    (tryAcquire true s now name calls period func).outcome = Except.ok func
    ∧ (tryAcquire true s now name calls period func).trace
      = [StoreOp.incrOp name 1,
         StoreOp.pexpireOp name (milliseconds_period period)]
    ∧ (tryAcquire true s now name calls period func).store name
      = some ⟨1, some (now + (milliseconds_period period).toNat)⟩ := by
  have hl : Store.lookup s now name = none := by
    simp [Store.lookup, hs, show ¬ now < d from by omega]
  rw [tryAcquire_fresh_valid s now name calls period func hl h1 h2]
  refine ⟨?_, rfl, Store.update_self (Store.update s name ⟨1, none⟩) name _⟩
  have hng : ¬ ((1 : Nat) : Int) > calls := by omega
  simp only [decision]
  rw [if_neg hng]

/-- Concrete check of C6: a key that expired at 1000 ms, revisited at
1200 ms, restarts its window. -/
theorem C6_witness :
    (Store.update Store.empty keyK ⟨3, some 1000⟩) keyK
      = some ⟨3, some 1000⟩
    ∧ 1000 ≤ 1200
    ∧ 0 < milliseconds_period 1 ∧ milliseconds_period 1 ≤ 1000 * 60 * 5
    ∧ (1 : Int) ≤ 2
    ∧ (tryAcquire true (Store.update Store.empty keyK ⟨3, some 1000⟩) 1200
        keyK 2 1 (some 9)).outcome = Except.ok (some 9)
    ∧ (tryAcquire true (Store.update Store.empty keyK ⟨3, some 1000⟩) 1200
        keyK 2 1 (some 9)).store keyK
      = some ⟨1, some (1200 + (milliseconds_period 1).toNat)⟩ := by
  have h1 : (0 : Int) < milliseconds_period 1 := by
    norm_num [milliseconds_period]
  have h2 : milliseconds_period 1 ≤ 1000 * 60 * 5 := by
    norm_num [milliseconds_period]
  have h := C6_window_rollover (Store.update Store.empty keyK ⟨3, some 1000⟩)
    1200 keyK 2 1 (some 9) 3 1000
    (Store.update_self Store.empty keyK ⟨3, some 1000⟩)
    (by norm_num) h1 h2 (by norm_num)
  exact ⟨Store.update_self Store.empty keyK ⟨3, some 1000⟩, by norm_num,
    h1, h2, by norm_num, h.1, h.2.2⟩

/-- Claim C9: Denied is encoded as the value None and an Allowed call
returns the bare wrapped-function result with no marker, so a denied call
and an allowed call whose wrapped function returned None have identical
outcomes. -/
theorem C9_denied_equals_allowed_none {α : Type} (s1 s2 : Store)
    (n1 n2 : Nat) (name1 name2 : String) (calls1 calls2 : Int)
    (p1 p2 : ℚ) (func : Option α)
    (h1a : 0 < milliseconds_period p1)
    (h1b : milliseconds_period p1 ≤ 1000 * 60 * 5)
    (h2a : 0 < milliseconds_period p2)
    (h2b : milliseconds_period p2 ≤ 1000 * 60 * 5)
    (hover : ((Store.incr s1 n1 name1).1 : Int) > calls1)
    (hunder : ¬ ((Store.incr s2 n2 name2).1 : Int) > calls2) :
    (tryAcquire true s1 n1 name1 calls1 p1 func).outcome = Except.ok none
    ∧ (tryAcquire true s2 n2 name2 calls2 p2 (none : Option α)).outcome
      = Except.ok none
    ∧ (tryAcquire true s1 n1 name1 calls1 p1 func).outcome
      = (tryAcquire true s2 n2 name2 calls2 p2 (none : Option α)).outcome
        := by
  have ha := tryAcquire_ok s1 n1 name1 calls1 p1 func h1a h1b
  have hb := tryAcquire_ok s2 n2 name2 calls2 p2 (none : Option α) h2a h2b
  have e1 : decision (Store.incr s1 n1 name1).1 calls1 func
      = (none : Option α) := by
    simp [decision, hover]
  have e2 : decision (Store.incr s2 n2 name2).1 calls2 (none : Option α)
      = (none : Option α) := by
    simp only [decision, if_neg hunder]
  rw [ha, hb, e1, e2]
  exact ⟨rfl, rfl, rfl⟩

/-- Concrete check of C9: a denied second call (max 1) and an allowed first
call whose wrapped function returned None are both `ok None`. -/
theorem C9_witness :
    0 < milliseconds_period 1 ∧ milliseconds_period 1 ≤ 1000 * 60 * 5
    ∧ ((Store.incr (Store.update Store.empty keyK ⟨1, none⟩) 0 keyK).1 : Int)
        > 1
    ∧ ¬ ((Store.incr Store.empty 0 keyK).1 : Int) > 5
    ∧ (tryAcquire true (Store.update Store.empty keyK ⟨1, none⟩) 0 keyK 1 1
        (some 4)).outcome
      = (tryAcquire true Store.empty 0 keyK 5 1
          (none : Option Nat)).outcome := by
  have h1 : (0 : Int) < milliseconds_period 1 := by
    norm_num [milliseconds_period]
  have h2 : milliseconds_period 1 ≤ 1000 * 60 * 5 := by
    norm_num [milliseconds_period]
  have hover : ((Store.incr (Store.update Store.empty keyK ⟨1, none⟩)
      0 keyK).1 : Int) > 1 := by
    simp [Store.incr, Store.lookup, Store.update]
  have hunder : ¬ ((Store.incr Store.empty 0 keyK).1 : Int) > 5 := by
    simp [Store.incr, Store.lookup, Store.empty]
  exact ⟨h1, h2, hover, hunder,
    (C9_denied_equals_allowed_none (Store.update Store.empty keyK ⟨1, none⟩)
      Store.empty 0 0 keyK keyK 1 5 1 1 (some 4) h1 h2 h1 h2 hover
      hunder).2.2⟩

/-- One unfolding step of `iterCalls` on a cons list of call times. -/
theorem iterCalls_cons {α : Type} (storeUp : Bool) (thread_name : String)
    (calls : Int) (period : ℚ) (func : Option α) (t : Nat) (ts : List Nat)
    (s : Store) :
    iterCalls storeUp thread_name calls period func (t :: ts) s
      = ((tryAcquire storeUp s t thread_name calls period func).outcome ::
          (iterCalls storeUp thread_name calls period func ts
            (tryAcquire storeUp s t thread_name calls period func).store).1,
         (iterCalls storeUp thread_name calls period func ts
            (tryAcquire storeUp s t thread_name calls period func).store).2.1,
         (tryAcquire storeUp s t thread_name calls period func).trace ++
          (iterCalls storeUp thread_name calls period func ts
            (tryAcquire storeUp s t thread_name calls period func).store).2.2)
      := rfl

/-- Claim C1: for a fresh key, a positive limit N and a valid period, the
first N calls of the window return the wrapped-function result (Allowed)
and the (N+1)th call in the same window returns None (Denied); and in
general the decision is Denied exactly when the post-increment count
exceeds max_calls. -/
theorem C1_first_N_allowed_then_denied {α : Type} (s : Store) (now : Nat)
    (name : String) (N : Nat) (period : ℚ) (func : Option α)
    (hfresh : Store.lookup s now name = none) (hN : 0 < N)
    (h1 : 0 < milliseconds_period period)
    (h2 : milliseconds_period period ≤ 1000 * 60 * 5) :
    (iterCalls true name (N : Int) period func
        (List.replicate (N + 1) now) s).1
      = List.replicate N (Except.ok func) ++ [Except.ok none]
    ∧ ∀ (c : Nat) (calls : Int),
        ((c : Int) > calls → decision c calls func = none)
        ∧ (¬ (c : Int) > calls → decision c calls func = func) := by
  constructor
  · obtain ⟨M, rfl⟩ : ∃ M, N = M + 1 := ⟨N - 1, by omega⟩
    have hfv := tryAcquire_fresh_valid s now name ((M + 1 : Nat) : Int)
      period func hfresh h1 h2
    have hlt : now < now + (milliseconds_period period).toNat := by omega
    have hs2 : (Store.update (Store.update s name ⟨1, none⟩) name
        ⟨1, some (now + (milliseconds_period period).toNat)⟩) name
        = some ⟨1, some (now + (milliseconds_period period).toNat)⟩ :=
      Store.update_self _ name _
    have hrest := iterCalls_live_window name ((M + 1 : Nat) : Int) period
      func now (now + (milliseconds_period period).toNat) hlt (M + 1) _ 1
      hs2 (by omega)
    have hd1 : decision 1 ((M + 1 : Nat) : Int) func = func := by
      simp only [decision]
      rw [if_neg (by push_cast; omega)]
    have hfM : decision (1 + 1 + M) ((M + 1 : Nat) : Int) func = none := by
      simp only [decision]
      rw [if_pos (by push_cast; omega)]
    have hfront : (List.range M).map
        (fun i => Except.ok (decision (1 + 1 + i) ((M + 1 : Nat) : Int)
          func))
        = List.replicate M (Except.ok func : Except RLError (Option α)) := by
      refine List.eq_replicate_iff.mpr ⟨by simp, ?_⟩
      intro b hb
      obtain ⟨i, hi, rfl⟩ := List.mem_map.mp hb
      have hiM : i < M := List.mem_range.mp hi
      have hdec : decision (1 + 1 + i) ((M + 1 : Nat) : Int) func = func := by
        simp only [decision]
        rw [if_neg (by push_cast; omega)]
      rw [hdec]
    rw [List.replicate_succ, iterCalls_cons]
    dsimp only
    rw [hfv]
    dsimp only
    rw [hrest.1, List.range_succ, List.map_append]
    rw [List.replicate_succ, List.cons_append]
    rw [hd1, hfront]
    simp only [List.map_cons, List.map_nil]
    rw [hfM]
  · intro c calls
    constructor
    · intro h
      simp [decision, h]
    · intro h
      simp only [decision]
      rw [if_neg h]

/-- Concrete check of C1 at N = 2, period = 1 second: Allowed, Allowed,
Denied. -/
theorem C1_witness :
    Store.lookup Store.empty 0 keyK = none
    ∧ 0 < 2
    ∧ 0 < milliseconds_period 1 ∧ milliseconds_period 1 ≤ 1000 * 60 * 5
    ∧ (iterCalls true keyK ((2 : Nat) : Int) 1 (some 7)
        (List.replicate (2 + 1) 0) Store.empty).1
      = List.replicate 2 (Except.ok (some 7)) ++ [Except.ok none] := by
  have h1 : (0 : Int) < milliseconds_period 1 := by
    norm_num [milliseconds_period]
  have h2 : milliseconds_period 1 ≤ 1000 * 60 * 5 := by
    norm_num [milliseconds_period]
  exact ⟨rfl, by norm_num, h1, h2,
    (C1_first_N_allowed_then_denied Store.empty 0 keyK 2 1 (some 7) rfl
      (by norm_num) h1 h2).1⟩

/-- Claim C10: when the period check fails on the window-opening call, the
increment has already happened: the error leaves the key at count 1 with
no TTL armed.  Every later call on that name, at any time, is a plain
increment — it observes a count above 1, cannot hit the validation again,
never arms an expiry, and the count never resets. -/
theorem C10_failed_validation_poisons_key {α : Type} (s : Store)
    (now : Nat) (name : String) (calls : Int) (period : ℚ) (func : Option α)
    (hl : Store.lookup s now name = none)
    (hbad : milliseconds_period period ≤ 0 ∨
      1000 * 60 * 5 < milliseconds_period period) :
    (tryAcquire true s now name calls period func).outcome
      = Except.error (RLError.validation (milliseconds_period period))
    ∧ (tryAcquire true s now name calls period func).store name
      = some ⟨1, none⟩
    ∧ ∀ ts : List Nat,
        (∀ op ∈ (iterCalls true name calls period func ts
            (tryAcquire true s now name calls period func).store).2.2,
          ∃ r, op = StoreOp.incrOp name r ∧ 1 < r)
        ∧ (∀ o ∈ (iterCalls true name calls period func ts
            (tryAcquire true s now name calls period func).store).1,
          ∃ v, o = Except.ok v)
        ∧ (iterCalls true name calls period func ts
            (tryAcquire true s now name calls period func).store).2.1 name
          = some ⟨1 + ts.length, none⟩ := by
  have h := tryAcquire_fresh_invalid s now name calls period func hl hbad
  rw [h]
  refine ⟨rfl, Store.update_self s name ⟨1, none⟩, ?_⟩
  intro ts
  have hno := iterCalls_no_ttl name calls period func ts
    (Store.update s name ⟨1, none⟩) 1 (Store.update_self s name ⟨1, none⟩)
    (by omega)
  refine ⟨?_, ?_, hno.2.1⟩
  · intro op hop
    rw [hno.2.2] at hop
    obtain ⟨i, hi, rfl⟩ := List.mem_map.mp hop
    exact ⟨1 + 1 + i, rfl, by omega⟩
  · intro o ho
    rw [hno.1] at ho
    obtain ⟨i, hi, rfl⟩ := List.mem_map.mp ho
    exact ⟨decision (1 + 1 + i) calls func, rfl⟩

/-- Concrete check of C10: after a rejected first call with period 0, two
later calls (one far beyond any nominal window) keep counting up on the
unexpiring key. -/
theorem C10_witness :
    Store.lookup Store.empty 0 keyK = none
    ∧ milliseconds_period 0 ≤ 0
    ∧ (tryAcquire true Store.empty 0 keyK 5 0 (some 2)).store keyK
      = some ⟨1, none⟩
    ∧ (iterCalls true keyK 5 0 (some 2) [400, 900000]
        (tryAcquire true Store.empty 0 keyK 5 0 (some 2)).store).2.1 keyK
      = some ⟨1 + List.length [400, 900000], none⟩ := by
  have hz : milliseconds_period 0 ≤ 0 := by norm_num [milliseconds_period]
  have h := C10_failed_validation_poisons_key Store.empty 0 keyK 5 0
    (some 2) rfl (Or.inl hz)
  exact ⟨rfl, hz, h.2.1, (h.2.2 [400, 900000]).2.2⟩
